import Mathlib

/-!
# Verification of the Streamlit BLAST app logic core

Shallow embedding of the three logic functions of `src/app.py`:

* `is_valid_dna` — `bool(re.match("^[ATCG]+$", sequence, re.IGNORECASE))`;
* `run_blast` — temp-file creation, `subprocess.run(..., check=True)` inside
  `try/except subprocess.CalledProcessError/finally os.remove`;
* `parse_blast_output` — strip-check then `pd.read_csv(StringIO(...), sep='\t',
  names=column_names)`.

Python library semantics (`re`, `subprocess`, `os`, `pandas`) are modelled
explicitly; each definition's doc comment states what it embeds.
-/

/-- The character class `[ATCG]` under `re.IGNORECASE`: the eight characters
`A a T t C c G g`. -/
def isDnaChar (c : Char) : Bool :=
  c == 'A' || c == 'a' || c == 'T' || c == 't' ||
  c == 'C' || c == 'c' || c == 'G' || c == 'g'

/-- Python's `$` (without `re.MULTILINE`): succeeds at position `i` of the
subject iff `i` is the end of the string, or `i` is the position of a final
newline character. -/
def dollarAt (cs : List Char) (i : Nat) : Bool :=
  i == cs.length || (i + 1 == cs.length && cs.getD i ' ' == '\n')

/-- `is_valid_dna(sequence)` from `src/app.py`:
`bool(re.match("^[ATCG]+$", sequence, re.IGNORECASE))`.
`re.match` anchors the attempt at position 0 (making `^` redundant); the match
succeeds iff some `i ≥ 1` exists such that the first `i` characters all lie in
the class `[ATCG]` (case-insensitively) and `$` succeeds at position `i`. -/
def is_valid_dna (s : String) : Bool :=
  (List.range (s.data.length + 1)).any fun i =>
    !(i == 0) && (s.data.take i).all isDnaChar && dollarAt s.data i

/-- The content of the subject left once a single string-final newline is
removed; used to characterise which strings `is_valid_dna` accepts. -/
def coreOf (cs : List Char) : List Char :=
  if cs.getLast? == some '\n' then cs.dropLast else cs

/-! ## The alignment runner `run_blast` -/

/-- Python exceptions relevant to `run_blast`:
`subprocess.CalledProcessError` (carrying the return code and the captured
output streams, as `subprocess.run(..., capture_output=True, check=True)`
attaches them) and the `OSError` family raised when the executable cannot be
launched at all (e.g. `FileNotFoundError`). -/
inductive PyExc
  | calledProcessError (returncode : Int) (stdout stderr : String)
  | osError (msg : String)
deriving DecidableEq, Repr

/-- The behaviour of one external-process invocation, the oracle `run_blast`
is parameterised by: either the process runs to completion with a return code
and captured output streams, or it cannot be launched at all. -/
inductive ProcBehavior
  | completes (returncode : Int) (stdout stderr : String)
  | launchFailure (msg : String)
deriving DecidableEq, Repr

/-- `subprocess.run(command, capture_output=True, text=True, check=True)`:
returns the captured `(stdout, stderr)` on exit status zero, raises
`CalledProcessError` on a non-zero exit status, and raises an `OSError` when
the process cannot be launched. -/
def subprocessRunCheck : ProcBehavior → Except PyExc (String × String)
  | .completes code out err =>
      if code = 0 then .ok (out, err)
      else .error (.calledProcessError code out err)
  | .launchFailure msg => .error (.osError msg)

/-- The slice of the file system `run_blast` touches: the temporary query
file of this invocation (whether it exists, and its content). -/
structure FS where
  tempFileExists : Bool
  tempFileContent : String
deriving DecidableEq, Repr

/-- `run_blast(program, database, query_sequence)` from `src/app.py`.

The body: `with tempfile.NamedTemporaryFile(mode="w", delete=False)` writes
`f">query\n\x7bquery_sequence\x7d"` to a fresh temporary file (which survives the
`with` block because of `delete=False`); then
`try: subprocess.run(command, ..., check=True); return stdout, stderr`
`except subprocess.CalledProcessError as e: return "", e.stderr`
`finally: os.remove(temp_fasta_path)`.

The result is the pair of (value returned or exception propagated, final
state of the temporary file). The `finally` clause runs `os.remove` on every
exit path, so the final file state is computed unconditionally. -/
def run_blast (program database query_sequence : String) (proc : ProcBehavior) :
    Except PyExc (String × String) × FS :=
  let fsAfterWrite : FS := ⟨true, ">query\n" ++ query_sequence⟩
  let _command : List String :=
    [program, "-query", "temp_fasta_path", "-db", database, "-outfmt",
     "6 qseqid sseqid pident length mismatch gapopen qstart qend sstart send evalue bitscore"]
  let tryBody : Except PyExc (String × String) := subprocessRunCheck proc
  let handled : Except PyExc (String × String) :=
    match tryBody with
    | .error (.calledProcessError _ _ stderr) => .ok ("", stderr)
    | other => other
  let fsFinal : FS := { fsAfterWrite with tempFileExists := false }
  (handled, fsFinal)

/-! ## The output parser `parse_blast_output` -/

/-- Python `str.split(sep)` for a single-character separator: splits at every
occurrence of `sep`, keeping empty pieces (`"".split(c) == ['']`). Also the
line/field splitting the `pandas` C tokenizer performs for `sep='\t'` input
with the default line terminator. -/
def pySplit (sep : Char) : List Char → List (List Char)
  | [] => [[]]
  | c :: rest =>
      let r := pySplit sep rest
      if c == sep then [] :: r
      else
        match r with
        | [] => [[c]]
        | h :: t => (c :: h) :: t

/-- The (ASCII) whitespace characters Python `str.strip()` removes. -/
def isPySpace (c : Char) : Bool :=
  c == ' ' || c == '\t' || c == '\n' || c == '\r' || c == '\x0b' || c == '\x0c'

/-- Python `str.strip()`: drop leading and trailing whitespace. -/
def pyStripList (l : List Char) : List Char :=
  ((l.dropWhile isPySpace).reverse.dropWhile isPySpace).reverse

/-- One cell of a parsed table, as `pandas.read_csv` types it: a string, an
integer, a floating-point number (modelled as the exact rational value of the
decimal literal), or a missing value (`NaN` padding). -/
inductive Cell
  | str (s : String)
  | int (n : Int)
  | float (q : ℚ)
  | na
deriving DecidableEq, Repr

/-- The value of a digit string, most significant digit first. -/
def digitsToNat (ds : List Char) : Nat :=
  ds.foldl (fun a c => 10 * a + (c.toNat - 48)) 0

/-- An optional leading `+`/`-` sign; returns the sign and the rest. -/
def pySign : List Char → Int × List Char
  | '-' :: rest => (-1, rest)
  | '+' :: rest => (1, rest)
  | l => (1, l)

/-- An integer token, as the `pandas` tokenizer recognises one: an optional
sign followed by one or more digits. -/
def parseIntTok (l : List Char) : Option Int :=
  let (sign, ds) := pySign l
  if ds.isEmpty then none
  else if ds.all Char.isDigit then some (sign * digitsToNat ds) else none

/-- The digits-dot-digits part of a floating-point token: `d+`, `d+.d*` or
`.d+`. The value is returned unreduced as a pair `(n, k)` standing for
`n / 10 ^ k`, so only `Int`/`Nat` arithmetic is involved. -/
def parseMantissa (l : List Char) : Option (Int × Nat) :=
  let intPart := l.takeWhile Char.isDigit
  let rest := l.dropWhile Char.isDigit
  match rest with
  | [] => if intPart.isEmpty then none else some ((digitsToNat intPart : Int), 0)
  | '.' :: fracRest =>
      let fracPart := fracRest.takeWhile Char.isDigit
      let rest2 := fracRest.dropWhile Char.isDigit
      if rest2.isEmpty then
        if intPart.isEmpty && fracPart.isEmpty then none
        else some (((digitsToNat intPart * 10 ^ fracPart.length +
          digitsToNat fracPart : Nat) : Int), fracPart.length)
      else none
  | _ => none

/-- A decimal exponent: an optional sign followed by one or more digits. -/
def parseExponent (l : List Char) : Option Int :=
  let (sign, ds) := pySign l
  if ds.isEmpty then none
  else if ds.all Char.isDigit then some (sign * digitsToNat ds) else none

/-- A floating-point token, as the `pandas` tokenizer recognises one:
optional sign, mantissa, optional `e`/`E` exponent; valued as the exact
rational value `sign * n * 10 ^ (e - k)` of the decimal literal. -/
def parseFloatTok (l : List Char) : Option ℚ :=
  let (sign, body) := pySign l
  let mant := body.takeWhile fun c => !(c == 'e') && !(c == 'E')
  let rest := body.dropWhile fun c => !(c == 'e') && !(c == 'E')
  let exp : Option Int :=
    match rest with
    | [] => some 0
    | _ :: expChars => parseExponent expChars
  match parseMantissa mant, exp with
  | some (n, k), some e =>
      let e2 : Int := e - (k : Int)
      some (if 0 ≤ e2 then mkRat (sign * n * ((10 ^ e2.toNat : Nat) : Int)) 1
            else mkRat (sign * n) (10 ^ (-e2).toNat))
  | _, _ => none

/-- How `pandas.read_csv` types one field of a homogeneous column: an empty
field is missing (`NaN`); otherwise an integer token parses as an integer, a
floating-point token as a float, and anything else stays text. -/
def parseCell (f : List Char) : Cell :=
  if f.isEmpty then .na
  else
    match parseIntTok f with
    | some n => .int n
    | none =>
        match parseFloatTok f with
        | some q => .float q
        | none => .str ⟨f⟩

/-- The 12 `-outfmt 6` column names of `src/app.py`, in source order. -/
def column_names : List String :=
  ["qseqid", "sseqid", "pident", "length", "mismatch", "gapopen",
   "qstart", "qend", "sstart", "send", "evalue", "bitscore"]

/-- One parsed data line: split on tabs, type each field, and pad a line with
fewer fields than column names with missing values (`NaN`), as
`pandas.read_csv` does when `names` is longer than a row. -/
def parseLine (l : List Char) : List Cell :=
  let cells := (pySplit '\t' l).map parseCell
  cells ++ List.replicate (column_names.length - cells.length) Cell.na

/-- The error `parse_blast_output` can propagate: the `pandas` tokenizer
error for a line with more fields than expected (`pandas.errors.ParserError`),
modelled abstractly. -/
inductive ParseErr
  | excessFields
deriving DecidableEq, Repr

/-- The parsed table: a `pandas.DataFrame`, reduced to its column names and
its rows of cells (row order = input order). -/
structure DataFrame where
  cols : List String
  rows : List (List Cell)
deriving DecidableEq, Repr

/-- `pd.read_csv(StringIO(blast_output), sep='\t', names=column_names)`:
split the text into lines, skip blank lines (`skip_blank_lines=True` is the
default), split each remaining line on tabs, type each field, pad short rows
with missing values, and fail with a tokenizer error if a line has more
fields than the 12 supplied names (the index-promotion `pandas` applies to
uniformly over-wide input is collapsed into the same abstract error; no claim
rests on that branch). -/
def read_csv (input : List Char) : Except ParseErr DataFrame :=
  if ((pySplit '\n' input).filter fun l => !l.isEmpty).any
      (fun l => column_names.length < (pySplit '\t' l).length) then
    .error ParseErr.excessFields
  else
    .ok ⟨column_names, ((pySplit '\n' input).filter fun l => !l.isEmpty).map parseLine⟩

/-- `parse_blast_output(blast_output)` from `src/app.py`, abstracted over the
table reader: `if not blast_output.strip(): return pd.DataFrame()` (the empty
frame, with no columns), else hand the whole text to the reader; no
`try`/`except` surrounds the reader, so any error it raises propagates. -/
def parse_blast_output_with (reader : List Char → Except ParseErr DataFrame)
    (s : String) : Except ParseErr DataFrame :=
  if pyStripList s.data = [] then .ok ⟨[], []⟩
  else reader s.data

/-- `parse_blast_output(blast_output)` from `src/app.py`, with the reader
instantiated to the `read_csv` model. -/
def parse_blast_output (s : String) : Except ParseErr DataFrame :=
  parse_blast_output_with read_csv s

instance {ε α : Type} [DecidableEq ε] [DecidableEq α] : DecidableEq (Except ε α)
  | .error e, .error f =>
      if h : e = f then .isTrue (by rw [h])
      else .isFalse (by intro c; cases c; exact h rfl)
  | .error _, .ok _ => .isFalse (by intro c; cases c)
  | .ok _, .error _ => .isFalse (by intro c; cases c)
  | .ok a, .ok b =>
      if h : a = b then .isTrue (by rw [h])
      else .isFalse (by intro c; cases c; exact h rfl)

/-- Join a list of lines with newline separators (the inverse of splitting
on `'\n'`); used to state round-trip properties of the parser. -/
def joinLines : List (List Char) → List Char
  | [] => []
  | [l] => l
  | l :: ls => l ++ '\n' :: joinLines ls

/-! ## Helper lemmas -/

/-- A character of the class `[ATCG]` (either case) is not a newline. -/
lemma isDnaChar_ne_newline {c : Char} (h : isDnaChar c = true) : c ≠ '\n' := by
  intro hc
  subst hc
  simp [isDnaChar] at h

/-- Unpacking one successful match position of `is_valid_dna`. -/
lemma is_valid_dna_elim {s : String} (h : is_valid_dna s = true) :
    ∃ i, i ≠ 0 ∧ i ≤ s.data.length ∧ (s.data.take i).all isDnaChar = true ∧
      dollarAt s.data i = true := by
  unfold is_valid_dna at h
  rw [List.any_eq_true] at h
  obtain ⟨i, hmem, hcond⟩ := h
  simp only [Bool.and_eq_true, Bool.not_eq_true', beq_eq_false_iff_ne, ne_eq] at hcond
  exact ⟨i, hcond.1.1, by
    have := List.mem_range.mp hmem; omega, hcond.1.2, hcond.2⟩

/-! ## Claims about the sequence validator -/

/-- C2: for every string of length at least 1 composed only of characters
from `{A, a, T, t, C, c, G, g}`, `is_valid_dna` returns true. -/
theorem is_valid_dna_true_of_all_dna (s : String) (h1 : s.data ≠ [])
    (h2 : s.data.all isDnaChar = true) : is_valid_dna s = true := by
  unfold is_valid_dna
  rw [List.any_eq_true]
  refine ⟨s.data.length, List.mem_range.mpr (Nat.lt_succ_self _), ?_⟩
  have hlen : s.data.length ≠ 0 := fun h0 => h1 (List.length_eq_zero.mp h0)
  rw [List.take_length, h2]
  unfold dollarAt
  simp only [beq_self_eq_true, Bool.true_or, Bool.and_true, Bool.true_and,
    Bool.not_eq_true', beq_eq_false_iff_ne, ne_eq]
  exact hlen

/-- Witness for C2 at the concrete input `"ACGTacgt"`. -/
theorem is_valid_dna_true_of_all_dna_witness :
    ("ACGTacgt".data ≠ [] ∧ "ACGTacgt".data.all isDnaChar = true) ∧
      is_valid_dna "ACGTacgt" = true :=
  ⟨⟨by decide, by decide⟩,
    is_valid_dna_true_of_all_dna "ACGTacgt" (by decide) (by decide)⟩

/-- C10: appending exactly one newline to a non-empty all-DNA string still
validates, because `$` also matches immediately before a string-final
newline. -/
theorem is_valid_dna_true_trailing_newline (s : String) (h1 : s.data ≠ [])
    (h2 : s.data.all isDnaChar = true) : is_valid_dna (s ++ "\n") = true := by
  have hdata : (s ++ "\n").data = s.data ++ ['\n'] := by
    simp [String.data_append]
  have hlen : s.data.length ≠ 0 := fun h0 => h1 (List.length_eq_zero.mp h0)
  unfold is_valid_dna
  rw [List.any_eq_true, hdata]
  refine ⟨s.data.length, List.mem_range.mpr ?_, ?_⟩
  · rw [List.length_append]
    simp only [List.length_cons, List.length_nil]
    omega
  · have htake : (s.data ++ ['\n']).take s.data.length = s.data :=
      List.take_left _ _
    have hget : (s.data ++ ['\n']).getD s.data.length ' ' = '\n' := by
      rw [List.getD_eq_getD_get?, List.get?_eq_getElem?, List.getElem?_concat_length]
      rfl
    have hlen2 : (s.data ++ ['\n']).length = s.data.length + 1 := by
      rw [List.length_append]
      rfl
    rw [htake, h2]
    unfold dollarAt
    rw [hget, hlen2]
    simp only [beq_self_eq_true, Bool.and_true, Bool.true_and, Bool.or_eq_true,
      Bool.and_eq_true, beq_iff_eq, Bool.not_eq_true', beq_eq_false_iff_ne, ne_eq]
    exact ⟨hlen, Or.inr trivial⟩

/-- Witness for C10 at the concrete input `"ATCG" ++ '\n'`. -/
theorem is_valid_dna_true_trailing_newline_witness :
    ("ATCG".data ≠ [] ∧ "ATCG".data.all isDnaChar = true) ∧
      is_valid_dna ("ATCG" ++ "\n") = true :=
  ⟨⟨by decide, by decide⟩,
    is_valid_dna_true_trailing_newline "ATCG" (by decide) (by decide)⟩

/-- C1 counterexample: `"ATCG\n"` is non-empty and contains a character
(`'\n'`) outside `{A, a, T, t, C, c, G, g}`, yet `is_valid_dna` returns
true, because `$` matches before the string-final newline. -/
theorem is_valid_dna_bad_char_counterexample :
    "ATCG\n".data ≠ [] ∧ (∃ c, c ∈ "ATCG\n".data ∧ isDnaChar c = false) ∧
      is_valid_dna "ATCG\n" = true :=
  ⟨by decide, ⟨'\n', by decide, by decide⟩, by decide⟩

/-- C1 (amended): for every string that is empty, or whose content once a
single string-final newline is removed is empty or contains a character
outside `{A, a, T, t, C, c, G, g}`, `is_valid_dna` returns false. -/
theorem is_valid_dna_false_of_bad_core (s : String)
    (h : coreOf s.data = [] ∨ ∃ c ∈ coreOf s.data, isDnaChar c = false) :
    is_valid_dna s = false := by
  cases hv : is_valid_dna s
  · rfl
  · exfalso
    obtain ⟨i, hi0, hile, hall, hdollar⟩ := is_valid_dna_elim hv
    rw [List.all_eq_true] at hall
    unfold dollarAt at hdollar
    rw [Bool.or_eq_true] at hdollar
    cases hdollar with
    | inl hend =>
        have hi : i = s.data.length := eq_of_beq hend
        have htake : s.data.take i = s.data := by
          rw [hi, List.take_length]
        rw [htake] at hall
        have hne : s.data ≠ [] := by
          intro hnil
          apply hi0
          rw [hi, hnil]
          rfl
        have hcore : coreOf s.data = s.data := by
          unfold coreOf
          cases hlast : s.data.getLast? with
          | none => simp
          | some c =>
              have hc : c ∈ s.data := List.mem_of_getLast?_eq_some hlast
              have hdna : isDnaChar c = true := hall c hc
              have hcn : c ≠ '\n' := isDnaChar_ne_newline hdna
              simp [hcn]
        rw [hcore] at h
        cases h with
        | inl h => exact hne h
        | inr h =>
            obtain ⟨c, hc, hbad⟩ := h
            rw [hall c hc] at hbad
            cases hbad
    | inr hpre =>
        rw [Bool.and_eq_true] at hpre
        have hi1 : i + 1 = s.data.length := eq_of_beq hpre.1
        have hnl : s.data.getD i ' ' = '\n' := eq_of_beq hpre.2
        have hilt : i < s.data.length := by omega
        have hgetE : s.data[i] = '\n' := by
          rw [← List.getD_eq_getElem s.data ' ' hilt]
          exact hnl
        have hlastE : s.data.getLast? = some '\n' := by
          rw [List.getLast?_eq_getElem?]
          have hidx : s.data.length - 1 = i := by omega
          rw [hidx, List.getElem?_eq_getElem hilt, hgetE]
        have hcore : coreOf s.data = s.data.take i := by
          unfold coreOf
          rw [hlastE]
          have : (some '\n' == some '\n') = true := by decide
          rw [this]
          simp only [if_true]
          rw [List.dropLast_eq_take]
          congr 1
          omega
        rw [hcore] at h
        cases h with
        | inl h =>
            have hlt : (s.data.take i).length = i := by
              rw [List.length_take]
              omega
            rw [h] at hlt
            exact hi0 (by simpa using hlt.symm)
        | inr h =>
            obtain ⟨c, hc, hbad⟩ := h
            rw [hall c hc] at hbad
            cases hbad

/-- Witness for the amended C1 at the concrete input `"AXT\n"`. -/
theorem is_valid_dna_false_of_bad_core_witness :
    (coreOf "AXT\n".data = [] ∨ ∃ c ∈ coreOf "AXT\n".data, isDnaChar c = false) ∧
      is_valid_dna "AXT\n" = false :=
  ⟨Or.inr ⟨'X', by decide, by decide⟩,
    is_valid_dna_false_of_bad_core "AXT\n" (Or.inr ⟨'X', by decide, by decide⟩)⟩

/-! ## Claims about the alignment runner -/

/-- C3: whenever the external process exits with a non-zero status,
`run_blast` returns the pair (empty string, captured stderr): the process's
stdout is discarded and the stderr text is surfaced unchanged. -/
theorem run_blast_nonzero_exit (p d q out err : String) (code : Int)
    (h : code ≠ 0) :
    (run_blast p d q (.completes code out err)).1 = .ok ("", err) := by
  simp only [run_blast, subprocessRunCheck, if_neg h]

/-- Witness for C3 at exit status 1 with concrete streams. -/
theorem run_blast_nonzero_exit_witness :
    (1 : Int) ≠ 0 ∧
      (run_blast "blastn" "nt" "ACGT"
        (.completes 1 "partial out" "error text")).1 = .ok ("", "error text") :=
  ⟨by decide,
    run_blast_nonzero_exit "blastn" "nt" "ACGT" "partial out" "error text" 1
      (by decide)⟩

/-- C4: on every exit path of `run_blast` — process success, process failure,
or an exception raised while invoking the process — the temporary query file
no longer exists when the invocation completes, because the `finally` clause
removes it unconditionally. -/
theorem run_blast_temp_file_removed (p d q : String) (proc : ProcBehavior) :
    (run_blast p d q proc).2.tempFileExists = false := rfl

/-- C8: `run_blast` never raises when the external tool runs but fails (a
non-zero exit status is translated into the `("", stderr)` return pair),
whereas the inability to launch the process at all is not caught and
propagates to the caller as a distinct error. -/
theorem run_blast_exception_policy :
    (∀ (p d q out err : String) (code : Int), code ≠ 0 →
      (run_blast p d q (.completes code out err)).1 = .ok ("", err)) ∧
    (∀ p d q msg : String,
      (run_blast p d q (.launchFailure msg)).1 = .error (.osError msg)) := by
  constructor
  · intro p d q out err code h
    simp only [run_blast, subprocessRunCheck, if_neg h]
  · intro p d q msg
    rfl

/-- Witness for C8: a failing run (exit 2) is returned as a pair, a launch
failure propagates as an `OSError`. -/
theorem run_blast_exception_policy_witness :
    (run_blast "blastp" "nr" "MKV" (.completes 2 "ignored" "boom")).1 =
        .ok ("", "boom") ∧
      (run_blast "blastp" "nr" "MKV" (.launchFailure "executable not found")).1 =
        .error (.osError "executable not found") :=
  ⟨run_blast_exception_policy.1 "blastp" "nr" "MKV" "ignored" "boom" 2 (by decide),
    run_blast_exception_policy.2 "blastp" "nr" "MKV" "executable not found"⟩

/-! ## Claims about the output parser -/

/-- Unfolding `pySplit` on a cons cell. -/
lemma pySplit_cons (sep c : Char) (rest : List Char) :
    pySplit sep (c :: rest) =
      if c == sep then [] :: pySplit sep rest
      else
        match pySplit sep rest with
        | [] => [[c]]
        | h :: t => (c :: h) :: t := rfl

/-- Splitting a separator-free list is the identity (one piece). -/
lemma pySplit_no_sep {sep : Char} : ∀ {l : List Char}, sep ∉ l →
    pySplit sep l = [l]
  | [], _ => rfl
  | c :: rest, h => by
      have hc : (c == sep) = false :=
        beq_eq_false_iff_ne.mpr fun hcs => h (hcs ▸ List.mem_cons_self c rest)
      have hrest : sep ∉ rest := fun hr => h (List.mem_cons_of_mem c hr)
      rw [pySplit_cons, pySplit_no_sep hrest, hc]
      rfl

/-- Splitting a list that starts with a separator-free piece followed by a
separator peels off that piece. -/
lemma pySplit_cons_piece {sep : Char} : ∀ {l : List Char} (rest : List Char),
    sep ∉ l → pySplit sep (l ++ sep :: rest) = l :: pySplit sep rest
  | [], rest, _ => by
      rw [List.nil_append, pySplit_cons, beq_self_eq_true]
      rfl
  | c :: l', rest, h => by
      have hc : (c == sep) = false :=
        beq_eq_false_iff_ne.mpr fun hcs => h (hcs ▸ List.mem_cons_self c l')
      have hl' : sep ∉ l' := fun hr => h (List.mem_cons_of_mem c hr)
      show pySplit sep (c :: (l' ++ sep :: rest)) = (c :: l') :: pySplit sep rest
      rw [pySplit_cons, pySplit_cons_piece rest hl', hc]
      rfl

/-- Splitting on `'\n'` inverts `joinLines` whenever no line contains a
newline: the parser sees exactly the joined lines, in order. -/
lemma pySplit_joinLines : ∀ {liness : List (List Char)}, liness ≠ [] →
    (∀ l ∈ liness, '\n' ∉ l) → pySplit '\n' (joinLines liness) = liness
  | [], h, _ => absurd rfl h
  | [l], _, hnl => by
      show pySplit '\n' (joinLines [l]) = [l]
      unfold joinLines
      exact pySplit_no_sep (hnl l (List.mem_singleton.mpr rfl))
  | l :: l2 :: ls, _, hnl => by
      show pySplit '\n' (l ++ '\n' :: joinLines (l2 :: ls)) = l :: l2 :: ls
      rw [pySplit_cons_piece _ (hnl l (List.mem_cons_self l (l2 :: ls)))]
      rw [pySplit_joinLines (by simp) fun x hx => hnl x (List.mem_cons_of_mem l hx)]

/-- C5: for every input that is empty or consists only of whitespace
characters, `parse_blast_output` returns the empty table and no error. -/
theorem parse_blast_output_whitespace (s : String)
    (h : s.data.all isPySpace = true) :
    parse_blast_output s = .ok ⟨[], []⟩ := by
  unfold parse_blast_output parse_blast_output_with
  have h1 : s.data.dropWhile isPySpace = [] :=
    List.dropWhile_eq_nil_iff.mpr fun x hx => (List.all_eq_true.mp h) x hx
  have hstrip : pyStripList s.data = [] := by
    unfold pyStripList
    rw [h1]
    rfl
  rw [if_pos hstrip]

/-- Witness for C5 at the concrete whitespace-only input `"  \t\n "`. -/
theorem parse_blast_output_whitespace_witness :
    "  \t\n ".data.all isPySpace = true ∧
      parse_blast_output "  \t\n " = .ok ⟨[], []⟩ :=
  ⟨by decide, parse_blast_output_whitespace "  \t\n " (by decide)⟩

/-- C6: parsing the single raw line
`"q1\ts1\t98.5\t100\t1\t0\t1\t100\t1\t100\t1e-50\t200.0\n"` yields exactly
one row under the 12 fixed column names, with qseqid `"q1"`, sseqid `"s1"`,
pident `98.5`, length `100`, mismatch `1`, gapopen `0`, qstart `1`,
qend `100`, sstart `1`, send `100`, evalue `1e-50`, bitscore `200.0`. -/
theorem parse_blast_output_roundtrip :
    parse_blast_output "q1\ts1\t98.5\t100\t1\t0\t1\t100\t1\t100\t1e-50\t200.0\n" =
      .ok ⟨column_names,
        [[.str "q1", .str "s1", .float (mkRat 197 2), .int 100, .int 1, .int 0,
          .int 1, .int 100, .int 1, .int 100, .float (mkRat 1 (10 ^ 50)),
          .float (mkRat 200 1)]]⟩ := by decide

/-- C7: for every well-formed tab-separated input, built by joining any list
of newline-free lines each of which is either empty or has exactly 12
tab-separated fields, `parse_blast_output` produces one row per non-empty
line, under the fixed 12 column names, rows in the same order as the input
lines. -/
theorem parse_blast_output_wellformed (liness : List (List Char))
    (hne : liness ≠ [])
    (hnl : ∀ l ∈ liness, '\n' ∉ l)
    (h12 : ∀ l ∈ liness, l ≠ [] → (pySplit '\t' l).length = 12)
    (hblank : pyStripList (joinLines liness) ≠ []) :
    parse_blast_output ⟨joinLines liness⟩ =
      .ok ⟨column_names,
        ((liness.filter fun l => !l.isEmpty).map parseLine)⟩ := by
  unfold parse_blast_output parse_blast_output_with read_csv
  rw [if_neg hblank]
  rw [show (String.mk (joinLines liness)).data = joinLines liness from rfl]
  rw [pySplit_joinLines hne hnl]
  have hno : ((liness.filter fun l => !l.isEmpty).any
      fun l => column_names.length < (pySplit '\t' l).length) = false := by
    rw [List.any_eq_false]
    intro l hl
    have hmem := List.mem_filter.mp hl
    have hlne : l ≠ [] := by
      intro hnil
      rw [hnil] at hmem
      exact Bool.false_ne_true (by simpa using hmem.2)
    rw [h12 l hmem.1 hlne]
    decide
  rw [hno]
  rfl

/-- Witness for C7 on a concrete two-line input with an interspersed blank
line. -/
theorem parse_blast_output_wellformed_witness :
    (["q1\ts1\t98.5\t100\t1\t0\t1\t100\t1\t100\t1e-50\t200.5".data,
      [],
      "q2\ts2\t75\t40\t2\t1\t1\t40\t5\t44\t0.5\t88".data] ≠ [] ∧
     pyStripList (joinLines
       ["q1\ts1\t98.5\t100\t1\t0\t1\t100\t1\t100\t1e-50\t200.5".data,
        [],
        "q2\ts2\t75\t40\t2\t1\t1\t40\t5\t44\t0.5\t88".data]) ≠ []) ∧
    parse_blast_output
        ⟨joinLines
          ["q1\ts1\t98.5\t100\t1\t0\t1\t100\t1\t100\t1e-50\t200.5".data,
           [],
           "q2\ts2\t75\t40\t2\t1\t1\t40\t5\t44\t0.5\t88".data]⟩ =
      .ok ⟨column_names,
        (([
           "q1\ts1\t98.5\t100\t1\t0\t1\t100\t1\t100\t1e-50\t200.5".data,
           [],
           "q2\ts2\t75\t40\t2\t1\t1\t40\t5\t44\t0.5\t88".data].filter
             fun l => !l.isEmpty).map parseLine)⟩ :=
  ⟨⟨by decide, by decide⟩,
    parse_blast_output_wellformed
      ["q1\ts1\t98.5\t100\t1\t0\t1\t100\t1\t100\t1e-50\t200.5".data,
       [],
       "q2\ts2\t75\t40\t2\t1\t1\t40\t5\t44\t0.5\t88".data]
      (by decide) (by decide) (by decide) (by decide)⟩

/-- C9 counterexample: the malformed single line `"a\tb"` (2 fields instead
of 12) does not make the parse fail; `parse_blast_output` returns a table
with one row, padded with missing values. -/
theorem parse_blast_output_malformed_counterexample :
    parse_blast_output "a\tb" =
      .ok ⟨column_names,
        [[.str "a", .str "b", .na, .na, .na, .na, .na, .na, .na, .na, .na,
          .na]]⟩ := by decide

/-- C9 (amended): `parse_blast_output` adds no error handling of its own, so
any error the underlying table parser raises on non-blank input propagates
to the caller unchanged; but the underlying parser does not fail on every
malformed line — every input whose lines all have at most 12 tab-separated
fields (including short, malformed ones) yields a returned table. -/
theorem parse_blast_output_no_error_handling :
    (∀ (reader : List Char → Except ParseErr DataFrame) (s : String)
        (e : ParseErr), pyStripList s.data ≠ [] → reader s.data = .error e →
      parse_blast_output_with reader s = .error e) ∧
    (∀ s : String, pyStripList s.data ≠ [] →
      (∀ l ∈ pySplit '\n' s.data, (pySplit '\t' l).length ≤ 12) →
      ∃ df, parse_blast_output s = .ok df) := by
  constructor
  · intro reader s e hs he
    unfold parse_blast_output_with
    rw [if_neg hs]
    exact he
  · intro s hs h12
    unfold parse_blast_output parse_blast_output_with read_csv
    rw [if_neg hs]
    have hno : (((pySplit '\n' s.data).filter fun l => !l.isEmpty).any
        fun l => column_names.length < (pySplit '\t' l).length) = false := by
      rw [List.any_eq_false]
      intro l hl
      have hmem := List.mem_filter.mp hl
      have := h12 l hmem.1
      simp only [decide_eq_true_eq, column_names, List.length_cons,
        List.length_nil]
      omega
    rw [hno]
    exact ⟨_, rfl⟩

/-- Witness for the amended C9: a raising reader propagates unchanged, and
the malformed 3-field line `"a\tb\tc"` yields a table. -/
theorem parse_blast_output_no_error_handling_witness :
    parse_blast_output_with (fun _ => .error ParseErr.excessFields) "x" =
        .error ParseErr.excessFields ∧
      ∃ df, parse_blast_output "a\tb\tc" = .ok df :=
  ⟨parse_blast_output_no_error_handling.1 (fun _ => .error ParseErr.excessFields)
      "x" ParseErr.excessFields (by decide) rfl,
    parse_blast_output_no_error_handling.2 "a\tb\tc" (by decide) (by decide)⟩
